import Mathlib

/-!
# Verification of the part-decomposition & feature-synthesis engine

Shallow embedding of the slicing service (`performGridSlice`,
`performManualSlice`, `applyHollowing`, `applyConnectors`,
`isValidPlacement`) and of the connector preview layout (`drawConnector`).
World-space quantities are modelled over `ℚ`.  The external boolean mesh
evaluator, brush construction (`createBrush`) and ray casting are
abstracted as oracles; the control flow around them follows the source.
-/

namespace Slicer

/-- Configuration record for the slicer (`SlicingConfig` in `types.ts`);
the `mode` discriminant is handled by the caller choosing which of the
two slicing functions to invoke. -/
structure SlicingConfig where
  printerX : ℚ
  printerY : ℚ
  printerZ : ℚ
  manualX : ℚ
  manualY : ℚ
  manualZ : ℚ
  showX : Bool
  showY : Bool
  showZ : Bool
deriving DecidableEq

/-- Hollowing configuration (`HollowConfig` in `types.ts`). -/
structure HollowConfig where
  enabled : Bool
  wallThickness : ℚ
  drainHoleEnabled : Bool
  drainHoleDiameter : ℚ
deriving DecidableEq

/-- The three CSG operations requested from the external evaluator. -/
inductive CsgOp where
  | add
  | sub
  | inter
deriving DecidableEq

/-! ## Volume partitioner (grid mode) -/

/-- Grid-mode step count along one axis:
`Math.max(1, Math.ceil(size / envelope))`. -/
def gridSteps (total env : ℚ) : ℕ :=
  max 1 (Int.ceil (total / env)).toNat

/-- Grid-mode cell extent along one axis for cell `i` of `s` cells:
`(i === s - 1) ? (total - i * envelope) : envelope`. -/
def gridCellSize (total env : ℚ) (s i : ℕ) : ℚ :=
  if i = s - 1 then total - (i : ℚ) * env else env

/-- The cell index triples visited by the nested `ix`/`iy`/`iz` loops,
in iteration order (`ix` outer, `iy` middle, `iz` inner). -/
def cellTriples (sx sy sz : ℕ) : List (ℕ × ℕ × ℕ) :=
  (List.range sx).flatMap fun ix =>
    (List.range sy).flatMap fun iy =>
      (List.range sz).map fun iz => (ix, iy, iz)

/-! ## Per-cell processing

The geometric content of one cell's extraction is abstracted by a
per-cell outcome oracle: the cell's box brush may fail to build
(`boxFail`, `createBrush` returns null), the evaluator call may raise
(`evalThrows`, caught by the per-cell `try`), the intersection may come
back with zero vertices (`emptyRes`), or a part is produced
(`produced`). -/
inductive COutcome where
  | boxFail
  | evalThrows
  | emptyRes
  | produced
deriving DecidableEq

/-- An output part; only the cell index is relevant to the claims. -/
structure GPart where
  index : ℕ × ℕ × ℕ
deriving DecidableEq

/-- Shared per-cell logic of both slicing loops: skip degenerate cells
(any extent `< 0.1`), then the `try { evaluate … } catch { continue }`
block abstracted by the outcome oracle.  Only `produced` pushes a part;
`boxFail`, `evalThrows` and `emptyRes` all fall through to the next
cell. -/
def processCellCore (w h d : ℚ) (out : COutcome) (x : ℕ × ℕ × ℕ) : Option GPart :=
  if w < (0.1 : ℚ) ∨ h < (0.1 : ℚ) ∨ d < (0.1 : ℚ) then none
  else
    match out with
    | COutcome.produced => some ⟨x⟩
    | _ => none

/-- One grid cell of `performGridSlice`: extents from `gridCellSize`. -/
def processGridCell (szX szY szZ eX eY eZ : ℚ) (sx sy sz : ℕ)
    (o : ℕ × ℕ × ℕ → COutcome) (x : ℕ × ℕ × ℕ) : Option GPart :=
  processCellCore (gridCellSize szX eX sx x.1) (gridCellSize szY eY sy x.2.1)
    (gridCellSize szZ eZ sz x.2.2) (o x) x

/-- One manual cell of `performManualSlice`: extents looked up in the
per-axis split lists. -/
def processManualCell (sX sY sZ : List ℚ)
    (o : ℕ × ℕ × ℕ → COutcome) (x : ℕ × ℕ × ℕ) : Option GPart :=
  processCellCore (sX.getD x.1 0) (sY.getD x.2.1 0) (sZ.getD x.2.2 0) (o x) x

/-- Events of mesh work performed by a grid run, used to express that the
safety-limit abort happens before any normalization or CSG work. -/
inductive TraceEv where
  | normalizeBase
  | hollowStage
  | evalCall (c : ℕ × ℕ × ℕ)
deriving DecidableEq

/-- Evaluator-call trace contributed by one grid cell: degenerate cells
and cells whose box brush fails to build never reach the evaluator. -/
def gridCellTrace (szX szY szZ eX eY eZ : ℚ) (sx sy sz : ℕ)
    (o : ℕ × ℕ × ℕ → COutcome) (x : ℕ × ℕ × ℕ) : List TraceEv :=
  if gridCellSize szX eX sx x.1 < (0.1 : ℚ) ∨ gridCellSize szY eY sy x.2.1 < (0.1 : ℚ) ∨
      gridCellSize szZ eZ sz x.2.2 < (0.1 : ℚ) then []
  else
    match o x with
    | COutcome.boxFail => []
    | _ => [TraceEv.evalCall x]

/-- `performGridSlice`: computes per-axis step counts, enforces the
500-cell safety limit before building the base brush, then extracts one
part per non-degenerate, non-failing cell.  `baseOk` abstracts whether
`createBrush(geometry.clone())` succeeds; `hollowEnabled` mirrors
`hollow.enabled`.  Returns the result together with the trace of mesh
work performed. -/
def performGridSlice (szX szY szZ : ℚ) (cfg : SlicingConfig)
    (hollowEnabled baseOk : Bool) (o : ℕ × ℕ × ℕ → COutcome) :
    Except String (List GPart) × List TraceEv :=
  let sx := gridSteps szX cfg.printerX
  let sy := gridSteps szY cfg.printerY
  let sz := gridSteps szZ cfg.printerZ
  if 500 < sx * sy * sz then
    (Except.error "Part count exceeds safety limit (500). Increase printer volume size.", [])
  else if baseOk = false then
    (Except.error "Could not initialize geometry for CSG.", [TraceEv.normalizeBase])
  else
    (Except.ok ((cellTriples sx sy sz).filterMap
        (processGridCell szX szY szZ cfg.printerX cfg.printerY cfg.printerZ sx sy sz o)),
      TraceEv.normalizeBase ::
        ((if hollowEnabled then [TraceEv.hollowStage] else []) ++
          (cellTriples sx sy sz).flatMap
            (gridCellTrace szX szY szZ cfg.printerX cfg.printerY cfg.printerZ sx sy sz o)))

/-! ## Volume partitioner (manual mode) -/

/-- Per-axis manual split distances:
`config.showA ? [config.manualA, size.a - config.manualA] : [size.a]`. -/
def manualSplits (enabledAxis : Bool) (offset total : ℚ) : List ℚ :=
  if enabledAxis then [offset, total - offset] else [total]

/-- `performManualSlice`: splits each axis per `manualSplits`, then the
same per-cell extract/skip/catch loop as grid mode (no safety limit). -/
def performManualSlice (szX szY szZ : ℚ) (cfg : SlicingConfig)
    (baseOk : Bool) (o : ℕ × ℕ × ℕ → COutcome) : Except String (List GPart) :=
  let sX := manualSplits cfg.showX cfg.manualX szX
  let sY := manualSplits cfg.showY cfg.manualY szY
  let sZ := manualSplits cfg.showZ cfg.manualZ szZ
  if baseOk = false then Except.error "Geometry initialization failed."
  else
    Except.ok ((cellTriples sX.length sY.length sZ.length).filterMap
      (processManualCell sX sY sZ o))

/-! ## Connector synthesizer: face dispatch -/

/-- The three world axes. -/
inductive Axis where
  | x
  | y
  | z
deriving DecidableEq

/-- A face of a part's bounding box along an axis: the `max`-side
(positive direction) or the `min`-side (negative direction). -/
inductive Dir where
  | pos
  | neg
deriving DecidableEq

/-- Component of an index triple along an axis. -/
def axComp (a : Axis) (v : ℤ × ℤ × ℤ) : ℤ :=
  match a with
  | Axis.x => v.1
  | Axis.y => v.2.1
  | Axis.z => v.2.2

/-- The neighbor index in the positive direction along an axis. -/
def bumpIdx (a : Axis) (v : ℤ × ℤ × ℤ) : ℤ × ℤ × ℤ :=
  match a with
  | Axis.x => (v.1 + 1, v.2.1, v.2.2)
  | Axis.y => (v.1, v.2.1 + 1, v.2.2)
  | Axis.z => (v.1, v.2.1, v.2.2 + 1)

/-- The sequence of `addFeatures(axis, isPeg)` invocations made by
`applyConnectors` for the part at index `idx` with step counts `st`:
```
if (ix < stepsX - 1) await addFeatures('x', true);
if (ix > 0)          await addFeatures('x', false);
…
``` -/
def connCalls (idx st : ℤ × ℤ × ℤ) : List (Axis × Bool) :=
  (if idx.1 < st.1 - 1 then [(Axis.x, true)] else []) ++
  (if 0 < idx.1 then [(Axis.x, false)] else []) ++
  (if idx.2.1 < st.2.1 - 1 then [(Axis.y, true)] else []) ++
  (if 0 < idx.2.1 then [(Axis.y, false)] else []) ++
  (if idx.2.2 < st.2.2 - 1 then [(Axis.z, true)] else []) ++
  (if 0 < idx.2.2 then [(Axis.z, false)] else [])

/-- The face an `addFeatures(axis, isPeg)` call decorates: pegs are
placed at `box.max` on the axis (outward normal `+1`), sockets at
`box.min` (outward normal `-1`). -/
def featureFace (a : Axis) (isPeg : Bool) : Axis × Dir :=
  (a, if isPeg then Dir.pos else Dir.neg)

/-- The feature kinds (`isPeg` flags) landing on one face of a part. -/
def featuresOnFace (idx st : ℤ × ℤ × ℤ) (f : Axis × Dir) : List Bool :=
  (connCalls idx st).filterMap fun c =>
    if featureFace c.1 c.2 = f then some c.2 else none

/-- Cylinder radius used by `addFeatures`: pegs use `diameter / 2`,
socket clearances `diameter / 2 + tolerance`. -/
def connRadius (diameter tolerance : ℚ) (isPeg : Bool) : ℚ :=
  if isPeg then diameter / 2 else diameter / 2 + tolerance

/-- Boolean operation used by `addFeatures`: pegs are unioned
(`ADDITION`), socket clearances subtracted (`SUBTRACTION`). -/
def connOp (isPeg : Bool) : CsgOp :=
  if isPeg then CsgOp.add else CsgOp.sub

/-! ## Connector synthesizer: candidate layout -/

/-- Candidate count along one in-plane direction of a face:
`Math.max(0, Math.floor((extent - margin * 2) / spacing))`. -/
def candCount (extent margin spacing : ℚ) : ℕ :=
  (max 0 (Int.floor ((extent - margin * 2) / spacing))).toNat

/-- The in-plane candidate offsets `dh * spacing - count * spacing / 2`
for `dh = 0 … count`. -/
def candOffsets (count : ℕ) (spacing : ℚ) : List ℚ :=
  (List.range (count + 1)).map fun k : ℕ =>
    (k : ℚ) * spacing - (count : ℚ) * spacing / 2

/-- Candidate centers (in-plane offset pairs, `hOff` outer loop, `vOff`
inner loop) laid out by `addFeatures` in `applyConnectors`; the spacing
is clamped below by 5 (`const spacing = Math.max(5, connectors.spacing)`). -/
def faceCandidates (spacing margin faceW faceH : ℚ) : List (ℚ × ℚ) :=
  (candOffsets (candCount faceW margin (max 5 spacing)) (max 5 spacing)).flatMap fun hOff =>
    (candOffsets (candCount faceH margin (max 5 spacing)) (max 5 spacing)).map fun vOff =>
      (hOff, vOff)

/-- Candidate centers laid out by the viewer preview's `drawConnector`
(same counts and offsets, spacing clamped by
`const spacing = Math.max(5, connectorConfig.spacing)`). -/
def previewCandidates (spacing margin faceW faceH : ℚ) : List (ℚ × ℚ) :=
  (List.range (candCount faceW margin (max 5 spacing) + 1)).flatMap fun dh : ℕ =>
    (List.range (candCount faceH margin (max 5 spacing) + 1)).map fun dv : ℕ =>
      ((dh : ℚ) * max 5 spacing - (candCount faceW margin (max 5 spacing) : ℚ) * max 5 spacing / 2,
       (dv : ℚ) * max 5 spacing - (candCount faceH margin (max 5 spacing) : ℚ) * max 5 spacing / 2)

/-- The candidate count exactly as the specification states it: computed
from the configured spacing, with no lower clamp.  Stated separately
from the source-derived `faceCandidates` so the two can be compared. -/
def specCandidateCount (spacing margin faceW faceH : ℚ) : ℕ :=
  ((max 0 (Int.floor ((faceW - 2 * margin) / spacing))).toNat + 1) *
    ((max 0 (Int.floor ((faceH - 2 * margin) / spacing))).toNat + 1)

/-! ## Connector synthesizer: placement validation -/

/-- A world-space vector. -/
structure V3 where
  x : ℚ
  y : ℚ
  z : ℚ
deriving DecidableEq

/-- `point.addScaledVector(s, v)`. -/
def V3.addScaled (a : V3) (s : ℚ) (b : V3) : V3 :=
  ⟨a.x + s * b.x, a.y + s * b.y, a.z + s * b.z⟩

/-- `v.negate()`. -/
def V3.neg (v : V3) : V3 :=
  ⟨-v.x, -v.y, -v.z⟩

/-- Ray cast against the part surface.  The surface oracle `surf` yields
the distances (sorted by the ray caster) at which the ray from `origin`
in direction `dir` meets the mesh; setting `raycaster.far` keeps only
hits with `0 ≤ t ≤ far`. -/
def rayHits (surf : V3 → V3 → List ℚ) (origin dir : V3) (far : ℚ) : List ℚ :=
  (surf origin dir).filter fun t => decide (0 ≤ t) && decide (t ≤ far)

/-- `isValidPlacement(mesh, point, normal, minDepth)`: probe a ray from
`point + 0.5·normal` along `-normal` with `far = 1.0` (a hit is
required), then a ray from `point - 0.1·normal` along `-normal` with
`far = minDepth` (`hits.length === 0 || hits[0].distance > minDepth`). -/
def isValidPlacement (surf : V3 → V3 → List ℚ) (point normal : V3)
    (minDepth : ℚ) : Bool :=
  let hits1 := rayHits surf (point.addScaled (0.5 : ℚ) normal) normal.neg 1
  if hits1.isEmpty then false
  else
    let hits2 := rayHits surf (point.addScaled (-(0.1 : ℚ)) normal) normal.neg minDepth
    hits2.isEmpty || decide (minDepth < hits2.headD 0)

/-- In-plane extents of a face (`faceW`, `faceH`) from the part size. -/
def faceDims (a : Axis) (size : V3) : ℚ × ℚ :=
  match a with
  | Axis.x => (size.z, size.y)
  | Axis.y => (size.x, size.z)
  | Axis.z => (size.x, size.y)

/-- Outward face normal used for placement probing. -/
def faceNormalV (a : Axis) (isPeg : Bool) : V3 :=
  match a with
  | Axis.x => ⟨if isPeg then 1 else -1, 0, 0⟩
  | Axis.y => ⟨0, if isPeg then 1 else -1, 0⟩
  | Axis.z => ⟨0, 0, if isPeg then 1 else -1⟩

/-- World position of a candidate on a face (lines placing `worldPos`
from `box.max`/`box.min`, the box center and the in-plane offsets). -/
def candWorldPos (a : Axis) (isPeg : Bool) (bmin bmax center : V3)
    (off : ℚ × ℚ) : V3 :=
  match a with
  | Axis.x => ⟨if isPeg then bmax.x else bmin.x, center.y + off.2, center.z + off.1⟩
  | Axis.y => ⟨center.x + off.1, if isPeg then bmax.y else bmin.y, center.z + off.2⟩
  | Axis.z => ⟨center.x + off.1, center.y + off.2, if isPeg then bmax.z else bmin.z⟩

/-- 3-D offset applied to the face position by the preview's
`drawConnector` for one candidate. -/
def previewOffsetVec (a : Axis) (off : ℚ × ℚ) : V3 :=
  match a with
  | Axis.x => ⟨0, off.2, off.1⟩
  | Axis.y => ⟨off.1, 0, off.2⟩
  | Axis.z => ⟨off.1, off.2, 0⟩

/-- The candidates of one face that pass `isValidPlacement` (minimum
required depth `h * 0.7` where `h = connectors.length`); failing
candidates are skipped, the loop continues. -/
def faceAccepted (surf : V3 → V3 → List ℚ) (a : Axis) (isPeg : Bool)
    (bmin bmax center : V3) (spacing margin faceW faceH len : ℚ) : List V3 :=
  ((faceCandidates spacing margin faceW faceH).map
      (candWorldPos a isPeg bmin bmax center)).filter
    fun p => isValidPlacement surf p (faceNormalV a isPeg) (len * (0.7 : ℚ))

/-! ## Hollowing stage -/

/-- Per-axis inner-shell scale factor:
`Math.max(0.01, (size - wall * 2) / size)`. -/
def hollowScale (size wall : ℚ) : ℚ :=
  max (0.01 : ℚ) ((size - wall * 2) / size)

/-- Symbolic solids handled by the hollowing stage: the base brush, the
scaled inner shell, the drain-hole cylinder, and evaluator outputs. -/
inductive HGeo where
  | base
  | innerShell (sx sy sz : ℚ)
  | drainCyl (radius height : ℚ)
  | evalRes (op : CsgOp) (a b : HGeo)
deriving DecidableEq

/-- The inner-shell geometry built by `applyHollowing` (clone of the
base, translated to the origin, scaled per axis, translated back). -/
def buildInnerShell (wall sizeX sizeY sizeZ : ℚ) : HGeo :=
  HGeo.innerShell (hollowScale sizeX wall) (hollowScale sizeY wall) (hollowScale sizeZ wall)

/-- `applyHollowing`: subtract the inner shell, then optionally subtract
an oversized drain cylinder (radius `drainHoleDiameter / 2`, height
`size.y + 100`).  `ev` is the evaluator (`none` = the call throws, which
lands in the single `catch` returning `baseBrush`); `reBrush` abstracts
`createBrush(result.geometry)` (`none` = null, falling back with `||`);
`innerOk`/`holeOk` abstract `createBrush` on the shell and cylinder. -/
def applyHollowing (cfg : HollowConfig) (sizeX sizeY sizeZ : ℚ)
    (innerOk holeOk : Bool) (ev : HGeo → HGeo → CsgOp → Option HGeo)
    (reBrush : HGeo → Option HGeo) (baseBrush : HGeo) : HGeo :=
  if cfg.enabled = false then baseBrush
  else
    if innerOk = false then baseBrush
    else
      match ev baseBrush (buildInnerShell cfg.wallThickness sizeX sizeY sizeZ) CsgOp.sub with
      | none => baseBrush
      | some r1 =>
        let resultBrush := (reBrush r1).getD baseBrush
        if cfg.drainHoleEnabled then
          if holeOk then
            match ev resultBrush
                (HGeo.drainCyl (cfg.drainHoleDiameter / 2) (sizeY + 100)) CsgOp.sub with
            | none => baseBrush
            | some r2 => (reBrush r2).getD resultBrush
          else resultBrush
        else resultBrush

/-- Evaluator oracle that succeeds on every operation except any
involving the drain cylinder, where it throws. -/
def evDrainThrow : HGeo → HGeo → CsgOp → Option HGeo :=
  fun a b op =>
    match b with
    | HGeo.drainCyl _ _ => none
    | _ => some (HGeo.evalRes op a b)

end Slicer

namespace Slicer

/-! ## Helper lemmas -/

theorem gridSteps_pos (total env : ℚ) : 1 ≤ gridSteps total env :=
  le_max_left _ _

theorem gridSteps_eq_ceil (total env : ℚ) (henv : 0 < env) (htot : 0 < total) :
    (gridSteps total env : ℤ) = Int.ceil (total / env) := by
  have hpos : (0 : ℚ) < total / env := div_pos htot henv
  have h1 : (1 : ℤ) ≤ Int.ceil (total / env) := by
    exact_mod_cast Int.ceil_pos.mpr hpos
  unfold gridSteps
  have hmax : max 1 (Int.ceil (total / env)).toNat = (Int.ceil (total / env)).toNat := by
    apply max_eq_right
    omega
  rw [hmax, Int.toNat_of_nonneg (by omega)]

theorem gridCellSize_sum (total env : ℚ) :
    ∑ i ∈ Finset.range (gridSteps total env),
      gridCellSize total env (gridSteps total env) i = total := by
  obtain ⟨k, hk⟩ : ∃ k, gridSteps total env = k + 1 := by
    have := gridSteps_pos total env
    exact ⟨gridSteps total env - 1, by omega⟩
  rw [hk, Finset.sum_range_succ]
  have hrest : ∀ i ∈ Finset.range k,
      gridCellSize total env (k + 1) i = env := by
    intro i hi
    have : i < k := Finset.mem_range.mp hi
    simp only [gridCellSize, Nat.add_sub_cancel]
    rw [if_neg (by omega)]
  rw [Finset.sum_congr rfl hrest]
  have hl : gridCellSize total env (k + 1) k = total - (k : ℚ) * env := by
    simp [gridCellSize]
  rw [hl, Finset.sum_const, Finset.card_range, nsmul_eq_mul]
  ring

/-- C1: For every grid-mode run with positive envelope size and positive
model extent along an axis, `performGridSlice` partitions the axis into
`steps = ⌈total / envelope⌉` cells whose extents are `envelope` for every
cell but the last and `total - (steps - 1) * envelope` for the last, so
that the extents sum exactly to the total extent (no gaps or
overlaps). -/
theorem grid_partition_extents (total env : ℚ) (henv : 0 < env) (htot : 0 < total) :
    ((gridSteps total env : ℤ) = Int.ceil (total / env)) ∧
    (∀ i : ℕ, i < gridSteps total env - 1 →
      gridCellSize total env (gridSteps total env) i = env) ∧
    (gridCellSize total env (gridSteps total env) (gridSteps total env - 1) =
      total - ((gridSteps total env : ℚ) - 1) * env) ∧
    (∑ i ∈ Finset.range (gridSteps total env),
      gridCellSize total env (gridSteps total env) i = total) := by
  refine ⟨gridSteps_eq_ceil total env henv htot, ?_, ?_, gridCellSize_sum total env⟩
  · intro i hi
    unfold gridCellSize
    rw [if_neg (by omega)]
  · have h1 := gridSteps_pos total env
    unfold gridCellSize
    rw [if_pos rfl]
    have : ((gridSteps total env - 1 : ℕ) : ℚ) = (gridSteps total env : ℚ) - 1 := by
      push_cast [Nat.cast_sub h1]
      ring
    rw [this]

/-- Witness for C1 at `total = 200`, `envelope = 120` (scenario A): two
cells per axis, sizes 120 and 80, summing to 200. -/
theorem grid_partition_extents_witness :
    gridSteps 200 120 = 2 ∧
    gridCellSize 200 120 (gridSteps 200 120) 0 = 120 ∧
    gridCellSize 200 120 (gridSteps 200 120) 1 = 80 ∧
    (∑ i ∈ Finset.range (gridSteps 200 120),
      gridCellSize 200 120 (gridSteps 200 120) i = 200) := by
  have h := grid_partition_extents 200 120 (by norm_num) (by norm_num)
  have hsteps : gridSteps 200 120 = 2 := by
    have hc : Int.ceil ((200 : ℚ) / 120) = 2 := by
      rw [Int.ceil_eq_iff] <;> norm_num
    have := h.1
    omega
  refine ⟨hsteps, ?_, ?_, h.2.2.2⟩
  · have := h.2.1 0 (by omega)
    simpa using this
  · have := h.2.2.1
    rw [hsteps] at this ⊢
    norm_num at this ⊢
    linarith [this]

end Slicer

namespace Slicer

/-- Evaluation helper for `gridSteps` at concrete inputs. -/
theorem gridSteps_eq (total env : ℚ) (n : ℕ) (h1 : 1 ≤ n)
    (hc : Int.ceil (total / env) = (n : ℤ)) : gridSteps total env = n := by
  unfold gridSteps
  rw [hc]
  simp
  omega

/-- C9: In a manual-mode run, a disabled axis contributes exactly one
split equal to the full axis size, and an enabled axis contributes
exactly the two splits `[offset, total - offset]`, whose sizes sum
exactly to the total axis size. -/
theorem manual_splits_exact (offset total : ℚ) :
    manualSplits false offset total = [total] ∧
    (manualSplits false offset total).length = 1 ∧
    manualSplits true offset total = [offset, total - offset] ∧
    (manualSplits true offset total).length = 2 ∧
    (manualSplits true offset total).sum = total ∧
    (manualSplits false offset total).sum = total := by
  refine ⟨rfl, rfl, rfl, rfl, ?_, ?_⟩ <;> simp [manualSplits] <;> ring

/-- C6: The hollowing stage scales the inner shell along an axis of
extent `size` by exactly `max(0.01, (size - 2·wall) / size)`; for
`wall ≥ size / 2` the factor is clamped to `0.01` and it is never zero
or negative. -/
theorem hollow_scale_clamped (sz w : ℚ) (h : 0 < sz) :
    hollowScale sz w = max 0.01 ((sz - 2 * w) / sz) ∧
    (sz / 2 ≤ w → hollowScale sz w = 0.01) ∧
    (0.01 : ℚ) ≤ hollowScale sz w ∧ 0 < hollowScale sz w ∧
    (∀ sy s2 : ℚ, buildInnerShell w sz sy s2 =
      HGeo.innerShell (hollowScale sz w) (hollowScale sy w) (hollowScale s2 w)) := by
  refine ⟨?_, ?_, le_max_left _ _,
    lt_of_lt_of_le (by norm_num) (le_max_left _ _), fun _ _ => rfl⟩
  · unfold hollowScale
    congr 1
    ring
  · intro hw
    unfold hollowScale
    apply max_eq_left
    have hnum : sz - w * 2 ≤ 0 := by linarith
    have hdiv : (sz - w * 2) / sz ≤ 0 := div_nonpos_of_nonpos_of_nonneg hnum h.le
    linarith

/-- Witness for C6: a 100-unit axis with wall 60 (≥ half the size)
clamps to scale 0.01. -/
theorem hollow_scale_clamped_witness : hollowScale 100 60 = 0.01 :=
  (hollow_scale_clamped 100 60 (by norm_num)).2.1 (by norm_num)

/-- C10: Both the connector synthesis pass and the connector preview lay
out candidates with the effective spacing `max(5, configured spacing)`;
whenever the configured spacing is below 5, counts and offsets are
computed as if the spacing were 5. -/
theorem spacing_clamped (spacing margin faceW faceH : ℚ) :
    faceCandidates spacing margin faceW faceH =
      faceCandidates (max 5 spacing) margin faceW faceH ∧
    previewCandidates spacing margin faceW faceH =
      previewCandidates (max 5 spacing) margin faceW faceH ∧
    (spacing ≤ 5 →
      faceCandidates spacing margin faceW faceH =
        faceCandidates 5 margin faceW faceH ∧
      previewCandidates spacing margin faceW faceH =
        previewCandidates 5 margin faceW faceH) := by
  have hmm : max (5 : ℚ) (max 5 spacing) = max 5 spacing := by
    rw [← max_assoc, max_self]
  refine ⟨?_, ?_, ?_⟩
  · unfold faceCandidates
    rw [hmm]
  · unfold previewCandidates
    rw [hmm]
  · intro h
    have h5 : max (5 : ℚ) spacing = 5 := max_eq_left h
    constructor
    · unfold faceCandidates
      rw [h5, max_self]
    · unfold previewCandidates
      rw [h5, max_self]

/-- Witness for C10 at configured spacing 2 (below the clamp). -/
theorem spacing_clamped_witness :
    faceCandidates 2 15 100 100 = faceCandidates 5 15 100 100 ∧
    previewCandidates 2 15 100 100 = previewCandidates 5 15 100 100 :=
  (spacing_clamped 2 15 100 100).2.2 (by norm_num)

/-- C3: Whenever the computed cell count `stepsX·stepsY·stepsZ` exceeds
500, `performGridSlice` aborts with the fatal configuration error before
any mesh is normalized or any CSG work is performed (empty work trace),
and returns no parts. -/
theorem grid_overlimit_aborts (szX szY szZ : ℚ) (cfg : SlicingConfig)
    (hollowEnabled baseOk : Bool) (o : ℕ × ℕ × ℕ → COutcome)
    (h : 500 < gridSteps szX cfg.printerX * gridSteps szY cfg.printerY *
      gridSteps szZ cfg.printerZ) :
    performGridSlice szX szY szZ cfg hollowEnabled baseOk o =
      (Except.error "Part count exceeds safety limit (500). Increase printer volume size.",
        []) := by
  simp only [performGridSlice]
  rw [if_pos h]

/-- Witness for C3: model extent 5010 with envelope 10 gives 501 cells
(scenario E), aborting with an empty trace. -/
theorem grid_overlimit_aborts_witness :
    performGridSlice 5010 10 10 ⟨10, 10, 10, 60, 60, 60, false, false, false⟩
      false true (fun _ => COutcome.produced) =
      (Except.error "Part count exceeds safety limit (500). Increase printer volume size.",
        []) := by
  apply grid_overlimit_aborts
  have h1 : gridSteps 5010 10 = 501 :=
    gridSteps_eq 5010 10 501 (by norm_num) (by norm_num [Int.ceil_eq_iff])
  have h2 : gridSteps 10 10 = 1 :=
    gridSteps_eq 10 10 1 (by norm_num) (by norm_num [Int.ceil_eq_iff])
  simp only [h1, h2]
  norm_num

end Slicer

namespace Slicer

theorem length_flatMap_map {α β γ : Type} (l1 : List α) (l2 : List β) (f : α → β → γ) :
    (l1.flatMap fun a => l2.map (f a)).length = l1.length * l2.length := by
  induction l1 with
  | nil => simp
  | cons a t ih => simp [ih, Nat.succ_mul, Nat.add_comm]

theorem candOffsets_length (c : ℕ) (s : ℚ) : (candOffsets c s).length = c + 1 := by
  rw [candOffsets, List.length_map, List.length_range]

theorem candOffsets_getD (c : ℕ) (s : ℚ) (k : ℕ) (hk : k < c + 1) :
    (candOffsets c s).getD k 0 = (k : ℚ) * s - (c : ℚ) * s / 2 := by
  unfold candOffsets
  rw [List.getD_eq_getElem?_getD, List.getElem?_map, List.getElem?_range hk]
  rfl

/-- C4 (amended): candidate centers form a grid of exactly
`(countH+1) × (countV+1)` positions — in the synthesis pass and in the
preview — where the counts are computed with the *effective* spacing
`max(5, configured spacing)`; the offsets are `dh·s - countH·s/2`,
consecutive offsets differ by the spacing, and the layout is symmetric
about the face center. -/
theorem face_candidates_layout (spacing margin faceW faceH : ℚ) :
    (faceCandidates spacing margin faceW faceH).length =
      (candCount faceW margin (max 5 spacing) + 1) *
        (candCount faceH margin (max 5 spacing) + 1) ∧
    (previewCandidates spacing margin faceW faceH).length =
      (candCount faceW margin (max 5 spacing) + 1) *
        (candCount faceH margin (max 5 spacing) + 1) ∧
    (∀ c : ℕ, candOffsets c (max 5 spacing) =
      (List.range (c + 1)).map fun k : ℕ =>
        (k : ℚ) * max 5 spacing - (c : ℚ) * max 5 spacing / 2) ∧
    (∀ c k : ℕ, k < c →
      (candOffsets c (max 5 spacing)).getD (k + 1) 0 -
        (candOffsets c (max 5 spacing)).getD k 0 = max 5 spacing) ∧
    (∀ c k : ℕ, k ≤ c →
      (candOffsets c (max 5 spacing)).getD k 0 +
        (candOffsets c (max 5 spacing)).getD (c - k) 0 = 0) := by
  refine ⟨?_, ?_, fun _ => rfl, ?_, ?_⟩
  · unfold faceCandidates
    rw [length_flatMap_map, candOffsets_length, candOffsets_length]
  · unfold previewCandidates
    rw [length_flatMap_map]
    simp
  · intro c k hk
    rw [candOffsets_getD c _ (k + 1) (by omega), candOffsets_getD c _ k (by omega)]
    push_cast
    ring
  · intro c k hk
    rw [candOffsets_getD c _ k (by omega), candOffsets_getD c _ (c - k) (by omega)]
    push_cast [Nat.cast_sub hk]
    ring

/-- C4 counterexample: with configured spacing 2, margin 15 and face
extents 100×100, the synthesis pass lays out 15×15 = 225 candidates
(effective spacing `max(5,2) = 5`), not the 36×36 = 1296 positions the
claim's formula (using the configured spacing) predicts. -/
theorem face_candidates_layout_cex :
    (faceCandidates 2 15 100 100).length = 225 ∧
    specCandidateCount 2 15 100 100 = 1296 ∧
    (faceCandidates 2 15 100 100).length ≠ specCandidateCount 2 15 100 100 := by
  have h5 : max (5 : ℚ) 2 = 5 := max_eq_left (by norm_num)
  have hc : candCount 100 15 (max 5 2) = 14 := by
    unfold candCount
    rw [h5]
    norm_num
    decide
  have h225 : (faceCandidates 2 15 100 100).length = 225 := by
    unfold faceCandidates
    rw [length_flatMap_map, candOffsets_length, hc]
  have h1296 : specCandidateCount 2 15 100 100 = 1296 := by
    unfold specCandidateCount
    norm_num
    decide
  exact ⟨h225, h1296, by rw [h225, h1296]; norm_num⟩

/-- Witness for C4 (amended) at spacing 50, margin 15, face width 100
(scenario D): `countH = 1`, hence 2 × 2 candidates, symmetric offsets. -/
theorem face_candidates_layout_witness :
    (faceCandidates 50 15 100 100).length = 4 ∧
    (candOffsets 1 (max 5 50)).getD 0 0 + (candOffsets 1 (max 5 50)).getD 1 0 = 0 := by
  have h := face_candidates_layout 50 15 100 100
  have hc : candCount 100 15 (max 5 50) = 1 := by
    unfold candCount
    rw [show max (5 : ℚ) 50 = 50 from max_eq_right (by norm_num)]
    norm_num
  constructor
  · rw [h.1, hc]
  · have h0 := h.2.2.2.2 1 0 (by omega)
    simpa using h0

end Slicer

namespace Slicer

theorem mem_if_singleton {α : Type} (c : Prop) [Decidable c] (x y : α) :
    (y ∈ if c then [x] else []) ↔ (c ∧ y = x) := by
  split_ifs with h
  · simp [h]
  · simp [h]

theorem mem_connCalls_peg (idx st : ℤ × ℤ × ℤ) (a : Axis) :
    (a, true) ∈ connCalls idx st ↔ axComp a idx + 1 < axComp a st := by
  cases a <;> simp [connCalls, axComp, mem_if_singleton] <;> omega

theorem mem_connCalls_socket (idx st : ℤ × ℤ × ℤ) (a : Axis) :
    (a, false) ∈ connCalls idx st ↔ 0 < axComp a idx := by
  cases a <;> simp [connCalls, axComp, mem_if_singleton]

theorem axComp_bump (a : Axis) (idx : ℤ × ℤ × ℤ) :
    axComp a (bumpIdx a idx) = axComp a idx + 1 := by
  cases a <;> rfl

theorem mem_featuresOnFace (idx st : ℤ × ℤ × ℤ) (f : Axis × Dir) (b : Bool) :
    b ∈ featuresOnFace idx st f ↔
      (f.1, b) ∈ connCalls idx st ∧ featureFace f.1 b = f := by
  unfold featuresOnFace
  rw [List.mem_filterMap]
  constructor
  · rintro ⟨⟨ca, cb⟩, hc, hsome⟩
    by_cases h : featureFace ca cb = f
    · rw [if_pos h] at hsome
      obtain rfl : cb = b := Option.some.inj hsome
      have h1 : ca = f.1 := by
        rw [← h]
        rfl
      subst h1
      exact ⟨hc, h⟩
    · rw [if_neg h] at hsome
      exact absurd hsome (by simp)
  · rintro ⟨hmem, hface⟩
    exact ⟨(f.1, b), hmem, by simp [hface]⟩

/-- C2: With connectors enabled, a part at cell index `(ix,iy,iz)`
receives pegs (additive cylinders of radius `diameter/2`, placed on the
positive face) exactly on the axes whose positive-direction neighbor
exists (`index + 1 < steps`), and socket clearances (subtractive
cylinders of radius `diameter/2 + tolerance`, on the negative face)
exactly on the axes whose negative-direction neighbor exists
(`index > 0`); between two adjacent parts exactly one carries the peg
and the other the socket, and no face of a part carries both. -/
theorem connector_faces (idx st : ℤ × ℤ × ℤ) (a : Axis) (diameter tolerance : ℚ) :
    ((a, true) ∈ connCalls idx st ↔ axComp a idx + 1 < axComp a st) ∧
    ((a, false) ∈ connCalls idx st ↔ 0 < axComp a idx) ∧
    featureFace a true = (a, Dir.pos) ∧
    featureFace a false = (a, Dir.neg) ∧
    connRadius diameter tolerance true = diameter / 2 ∧
    connRadius diameter tolerance false = diameter / 2 + tolerance ∧
    connOp true = CsgOp.add ∧
    connOp false = CsgOp.sub ∧
    (∀ f : Axis × Dir,
      ¬(true ∈ featuresOnFace idx st f ∧ false ∈ featuresOnFace idx st f)) ∧
    (0 ≤ axComp a idx → axComp a idx + 1 < axComp a st →
      (a, true) ∈ connCalls idx st ∧
      (a, false) ∈ connCalls (bumpIdx a idx) st ∧
      true ∉ featuresOnFace (bumpIdx a idx) st (a, Dir.neg) ∧
      false ∉ featuresOnFace idx st (a, Dir.pos)) := by
  refine ⟨mem_connCalls_peg idx st a, mem_connCalls_socket idx st a, rfl, rfl, rfl, rfl,
    rfl, rfl, ?_, ?_⟩
  · rintro f ⟨h1, h2⟩
    rw [mem_featuresOnFace] at h1 h2
    have hpn : (f.1, Dir.pos) = (f.1, Dir.neg) := by
      have e1 : featureFace f.1 true = (f.1, Dir.pos) := rfl
      have e2 : featureFace f.1 false = (f.1, Dir.neg) := rfl
      rw [← e1, ← e2, h1.2, h2.2]
    simpa using hpn
  · intro h0 h1
    refine ⟨(mem_connCalls_peg idx st a).mpr h1, ?_, ?_, ?_⟩
    · refine (mem_connCalls_socket (bumpIdx a idx) st a).mpr ?_
      rw [axComp_bump]
      omega
    · intro hmem
      have := (mem_featuresOnFace (bumpIdx a idx) st (a, Dir.neg) true).mp hmem
      have hface := this.2
      simp [featureFace] at hface
    · intro hmem
      have := (mem_featuresOnFace idx st (a, Dir.pos) false).mp hmem
      have hface := this.2
      simp [featureFace] at hface

/-- Witness for C2: in a 2×1×1 grid, part (0,0,0) carries the x-face
peg and its neighbor (1,0,0) the matching socket. -/
theorem connector_faces_witness :
    (Axis.x, true) ∈ connCalls (0, 0, 0) (2, 1, 1) ∧
    (Axis.x, false) ∈ connCalls (1, 0, 0) (2, 1, 1) := by
  have h := (connector_faces (0, 0, 0) (2, 1, 1) Axis.x 6 (3/10)).2.2.2.2.2.2.2.2.2
    (by decide) (by decide)
  exact ⟨h.1, h.2.1⟩

end Slicer

namespace Slicer

theorem mem_rayHits_le (surf : V3 → V3 → List ℚ) (o d : V3) (far t : ℚ)
    (h : t ∈ rayHits surf o d far) : t ≤ far := by
  unfold rayHits at h
  rw [List.mem_filter] at h
  have h2 := h.2
  simp only [Bool.and_eq_true, decide_eq_true_eq] at h2
  exact h2.2

/-- C5: For a candidate center `C` with outward face normal `N` and
minimum required depth `d = 0.7 · connector length`, `isValidPlacement`
accepts iff (1) the ray from `C + 0.5N` along `-N` with max distance 1.0
hits the surface and (2) the ray from `C - 0.1N` along `-N` reports no
hit within distance `d`; in `applyConnectors` a candidate failing either
probe is merely filtered out of the face's feature list (depth
`length · 0.7`), never aborting the pass. -/
theorem placement_probe (surf : V3 → V3 → List ℚ) (point normal : V3) (d len : ℚ) :
    (isValidPlacement surf point normal d = true ↔
      rayHits surf (point.addScaled 0.5 normal) normal.neg 1 ≠ [] ∧
      rayHits surf (point.addScaled (-0.1) normal) normal.neg d = []) ∧
    (∀ (a : Axis) (isPeg : Bool) (bmin bmax center : V3)
        (spacing margin faceW faceH : ℚ) (p : V3),
      p ∈ faceAccepted surf a isPeg bmin bmax center spacing margin faceW faceH len ↔
        p ∈ (faceCandidates spacing margin faceW faceH).map
            (candWorldPos a isPeg bmin bmax center) ∧
        isValidPlacement surf p (faceNormalV a isPeg) (len * 0.7) = true) := by
  constructor
  · by_cases h1 : rayHits surf (point.addScaled 0.5 normal) normal.neg 1 = []
    · simp [isValidPlacement, h1]
    · rw [isValidPlacement]
      rw [if_neg (by simp [List.isEmpty_iff, h1])]
      cases h2 : rayHits surf (point.addScaled (-(0.1 : ℚ)) normal) normal.neg d with
      | nil => simp [h2, h1]
      | cons t rest =>
        have ht : t ≤ d := mem_rayHits_le surf _ _ d t (by rw [h2]; exact List.mem_cons_self t rest)
        simp [h2, h1]
        linarith
  · intro a isPeg bmin bmax center spacing margin faceW faceH p
    simp [faceAccepted, List.mem_filter]

/-- C7 counterexample: with hollowing and drain holes enabled, an
evaluator that succeeds on the shell subtraction but throws on the
drain-hole subtraction makes `applyHollowing` return the original
`baseBrush` — not the pre-drain result (the shell-subtracted solid),
which is a different solid. -/
theorem hollow_drain_cex :
    applyHollowing ⟨true, 2, true, 8⟩ 100 100 100 true true evDrainThrow some HGeo.base =
      HGeo.base ∧
    evDrainThrow HGeo.base (buildInnerShell 2 100 100 100) CsgOp.sub =
      some (HGeo.evalRes CsgOp.sub HGeo.base (buildInnerShell 2 100 100 100)) ∧
    evDrainThrow (HGeo.evalRes CsgOp.sub HGeo.base (buildInnerShell 2 100 100 100))
      (HGeo.drainCyl (8 / 2) (100 + 100)) CsgOp.sub = none ∧
    HGeo.base ≠ HGeo.evalRes CsgOp.sub HGeo.base (buildInnerShell 2 100 100 100) := by
  refine ⟨rfl, rfl, rfl, ?_⟩
  intro h
  exact HGeo.noConfusion h

/-- C7 (amended): When drain holes are enabled and the shell subtraction
has succeeded, `applyHollowing` returns the pre-drain result if the
drain-cylinder brush fails to build or if re-brushing the drain
subtraction's output fails; but if the drain subtraction itself raises
an evaluator exception, the surrounding catch returns the original
un-hollowed `baseBrush`, not the pre-drain result. -/
theorem hollow_drain_fallbacks (cfg : HollowConfig) (sx sy sz : ℚ)
    (ev : HGeo → HGeo → CsgOp → Option HGeo) (reBrush : HGeo → Option HGeo)
    (baseBrush r1 : HGeo)
    (hen : cfg.enabled = true) (hdr : cfg.drainHoleEnabled = true)
    (hev : ev baseBrush (buildInnerShell cfg.wallThickness sx sy sz) CsgOp.sub = some r1) :
    (applyHollowing cfg sx sy sz true false ev reBrush baseBrush =
      (reBrush r1).getD baseBrush) ∧
    (∀ r2 : HGeo,
      ev ((reBrush r1).getD baseBrush)
          (HGeo.drainCyl (cfg.drainHoleDiameter / 2) (sy + 100)) CsgOp.sub = some r2 →
      reBrush r2 = none →
      applyHollowing cfg sx sy sz true true ev reBrush baseBrush =
        (reBrush r1).getD baseBrush) ∧
    (ev ((reBrush r1).getD baseBrush)
        (HGeo.drainCyl (cfg.drainHoleDiameter / 2) (sy + 100)) CsgOp.sub = none →
      applyHollowing cfg sx sy sz true true ev reBrush baseBrush = baseBrush) := by
  refine ⟨?_, ?_, ?_⟩
  · simp [applyHollowing, hen, hdr, hev]
  · intro r2 hev2 hrb
    simp [applyHollowing, hen, hdr, hev, hev2, hrb]
  · intro hev2
    simp [applyHollowing, hen, hdr, hev, hev2]

/-- Witness for C7 (amended): the evaluator-throw fallback at a concrete
configuration. -/
theorem hollow_drain_fallbacks_witness :
    applyHollowing ⟨true, 2, true, 8⟩ 100 100 100 true true evDrainThrow some HGeo.base =
      HGeo.base :=
  (hollow_drain_fallbacks ⟨true, 2, true, 8⟩ 100 100 100 evDrainThrow some HGeo.base
    (HGeo.evalRes CsgOp.sub HGeo.base (buildInnerShell 2 100 100 100)) rfl rfl rfl).2.2 rfl

end Slicer

namespace Slicer

theorem processCellCore_index (w h d : ℚ) (out : COutcome) (x : ℕ × ℕ × ℕ) (p : GPart)
    (hp : processCellCore w h d out x = some p) : p.index = x := by
  unfold processCellCore at hp
  split_ifs at hp
  cases out with
  | produced =>
    have hinj := Option.some.inj hp
    rw [← hinj]
  | boxFail => simp at hp
  | evalThrows => simp at hp
  | emptyRes => simp at hp

theorem processCellCore_throws (w h d : ℚ) (x : ℕ × ℕ × ℕ) :
    processCellCore w h d COutcome.evalThrows x = none := by
  unfold processCellCore
  split_ifs <;> rfl

theorem filterMap_isolated (f g : ℕ × ℕ × ℕ → Option GPart) (c : ℕ × ℕ × ℕ)
    (hf : ∀ x p, f x = some p → p.index = x)
    (hg : ∀ x p, g x = some p → p.index = x)
    (hfc : f c = none)
    (hfg : ∀ x, x ≠ c → f x = g x) (l : List (ℕ × ℕ × ℕ)) :
    l.filterMap f = (l.filterMap g).filter (fun p => decide (p.index ≠ c)) ∧
    ∀ p ∈ l.filterMap f, p.index ≠ c := by
  constructor
  · induction l with
    | nil => rfl
    | cons x t ih =>
      rw [List.filterMap_cons, List.filterMap_cons]
      by_cases hx : x = c
      · subst hx
        rw [hfc]
        cases hgx : g x with
        | none => exact ih
        | some p =>
          have hpi : p.index = x := hg x p hgx
          simp only [List.filter_cons]
          rw [if_neg (by simp [hpi])]
          exact ih
      · rw [hfg x hx]
        cases hgx : g x with
        | none => exact ih
        | some p =>
          have hpi : p.index = x := hg x p hgx
          simp only [List.filter_cons]
          rw [if_pos (by simp [hpi, hx])]
          rw [ih]
  · intro p hp
    rw [List.mem_filterMap] at hp
    obtain ⟨x, _, hfx⟩ := hp
    have hpi := hf x p hfx
    intro hpc
    have hxc : x = c := hpi.symm.trans hpc
    rw [hxc, hfc] at hfx
    exact Option.noConfusion hfx

theorem performGridSlice_ok (szX szY szZ : ℚ) (cfg : SlicingConfig)
    (hollowEnabled : Bool) (o : ℕ × ℕ × ℕ → COutcome)
    (h500 : gridSteps szX cfg.printerX * gridSteps szY cfg.printerY *
      gridSteps szZ cfg.printerZ ≤ 500) :
    (performGridSlice szX szY szZ cfg hollowEnabled true o).1 =
      Except.ok ((cellTriples (gridSteps szX cfg.printerX) (gridSteps szY cfg.printerY)
          (gridSteps szZ cfg.printerZ)).filterMap
        (processGridCell szX szY szZ cfg.printerX cfg.printerY cfg.printerZ
          (gridSteps szX cfg.printerX) (gridSteps szY cfg.printerY)
          (gridSteps szZ cfg.printerZ) o)) := by
  simp only [performGridSlice]
  rw [if_neg (by omega)]
  rfl

theorem performManualSlice_ok (szX szY szZ : ℚ) (cfg : SlicingConfig)
    (o : ℕ × ℕ × ℕ → COutcome) :
    performManualSlice szX szY szZ cfg true o =
      Except.ok ((cellTriples (manualSplits cfg.showX cfg.manualX szX).length
          (manualSplits cfg.showY cfg.manualY szY).length
          (manualSplits cfg.showZ cfg.manualZ szZ).length).filterMap
        (processManualCell (manualSplits cfg.showX cfg.manualX szX)
          (manualSplits cfg.showY cfg.manualY szY)
          (manualSplits cfg.showZ cfg.manualZ szZ) o)) := by
  simp [performManualSlice]

/-- C8: In both grid and manual mode, an evaluator exception while
processing one cell is caught: the run still returns `ok`, the failing
cell contributes no part, and every other cell's part is exactly what it
would have been under any oracle agreeing outside the failing cell —
one cell's failure never aborts the run and never discards other cells'
parts. -/
theorem cell_failure_isolated (szX szY szZ : ℚ) (cfg : SlicingConfig)
    (hollowEnabled : Bool) (o oAlt : ℕ × ℕ × ℕ → COutcome) (c : ℕ × ℕ × ℕ)
    (h500 : gridSteps szX cfg.printerX * gridSteps szY cfg.printerY *
      gridSteps szZ cfg.printerZ ≤ 500)
    (hc : o c = COutcome.evalThrows)
    (hagree : ∀ x, x ≠ c → oAlt x = o x) :
    (∃ l l' : List GPart,
      (performGridSlice szX szY szZ cfg hollowEnabled true o).1 = Except.ok l ∧
      (performGridSlice szX szY szZ cfg hollowEnabled true oAlt).1 = Except.ok l' ∧
      (∀ p ∈ l, p.index ≠ c) ∧
      l = l'.filter (fun p => decide (p.index ≠ c))) ∧
    (∃ m m' : List GPart,
      performManualSlice szX szY szZ cfg true o = Except.ok m ∧
      performManualSlice szX szY szZ cfg true oAlt = Except.ok m' ∧
      (∀ p ∈ m, p.index ≠ c) ∧
      m = m'.filter (fun p => decide (p.index ≠ c))) := by
  constructor
  · have hiso := filterMap_isolated
      (processGridCell szX szY szZ cfg.printerX cfg.printerY cfg.printerZ
        (gridSteps szX cfg.printerX) (gridSteps szY cfg.printerY)
        (gridSteps szZ cfg.printerZ) o)
      (processGridCell szX szY szZ cfg.printerX cfg.printerY cfg.printerZ
        (gridSteps szX cfg.printerX) (gridSteps szY cfg.printerY)
        (gridSteps szZ cfg.printerZ) oAlt)
      c
      (fun x p hp => processCellCore_index _ _ _ _ _ _ hp)
      (fun x p hp => processCellCore_index _ _ _ _ _ _ hp)
      (by
        show processCellCore _ _ _ (o c) c = none
        rw [hc]
        exact processCellCore_throws _ _ _ _)
      (fun x hx => by
        show processCellCore _ _ _ (o x) x = processCellCore _ _ _ (oAlt x) x
        rw [hagree x hx])
      (cellTriples (gridSteps szX cfg.printerX) (gridSteps szY cfg.printerY)
        (gridSteps szZ cfg.printerZ))
    exact ⟨_, _, performGridSlice_ok szX szY szZ cfg hollowEnabled o h500,
      performGridSlice_ok szX szY szZ cfg hollowEnabled oAlt h500, hiso.2, hiso.1⟩
  · have hiso := filterMap_isolated
      (processManualCell (manualSplits cfg.showX cfg.manualX szX)
        (manualSplits cfg.showY cfg.manualY szY)
        (manualSplits cfg.showZ cfg.manualZ szZ) o)
      (processManualCell (manualSplits cfg.showX cfg.manualX szX)
        (manualSplits cfg.showY cfg.manualY szY)
        (manualSplits cfg.showZ cfg.manualZ szZ) oAlt)
      c
      (fun x p hp => processCellCore_index _ _ _ _ _ _ hp)
      (fun x p hp => processCellCore_index _ _ _ _ _ _ hp)
      (by
        show processCellCore _ _ _ (o c) c = none
        rw [hc]
        exact processCellCore_throws _ _ _ _)
      (fun x hx => by
        show processCellCore _ _ _ (o x) x = processCellCore _ _ _ (oAlt x) x
        rw [hagree x hx])
      (cellTriples (manualSplits cfg.showX cfg.manualX szX).length
        (manualSplits cfg.showY cfg.manualY szY).length
        (manualSplits cfg.showZ cfg.manualZ szZ).length)
    exact ⟨_, _, performManualSlice_ok szX szY szZ cfg o,
      performManualSlice_ok szX szY szZ cfg oAlt, hiso.2, hiso.1⟩

/-- Witness for C8: a 2×2×2 grid run (and the manual run with the same
config) in which cell (0,0,0) throws still returns `ok`, without a part
for (0,0,0). -/
theorem cell_failure_isolated_witness :
    ∃ l : List GPart,
      (performGridSlice 200 200 200 ⟨120, 120, 120, 60, 60, 60, false, false, false⟩
        false true (fun x => if x = (0, 0, 0) then COutcome.evalThrows
          else COutcome.produced)).1 = Except.ok l ∧
      ∀ p ∈ l, p.index ≠ (0, 0, 0) := by
  have h2 : gridSteps 200 120 = 2 :=
    gridSteps_eq 200 120 2 (by norm_num) (by norm_num [Int.ceil_eq_iff])
  have h := cell_failure_isolated 200 200 200 ⟨120, 120, 120, 60, 60, 60, false, false, false⟩
    false (fun x => if x = (0, 0, 0) then COutcome.evalThrows else COutcome.produced)
    (fun _ => COutcome.produced) (0, 0, 0)
    (by simp only [h2]; norm_num)
    (by simp)
    (fun x hx => by
      show COutcome.produced =
        if x = (0, 0, 0) then COutcome.evalThrows else COutcome.produced
      rw [if_neg hx])
  obtain ⟨⟨l, l', hl, _, hmem, _⟩, _⟩ := h
  exact ⟨l, hl, hmem⟩

end Slicer
